import Mathlib

/-!
Shallow embedding of the dashcam-gps-extract core (src/novatek_gps.rs,
src/main.rs, src/opts.rs): the Novatek GPS record validator/decoder, the
coordinate and speed unit conversions, and the extraction/sorting pipeline.

A raw record is a byte buffer, modelled as a list of naturals; every read
masks to the low 8 bits, matching the u8 cells of the Rust slice.  Rust f32
and f64 values are embedded as exact rationals: an f32 field is decoded from
its IEEE-754 bit pattern to the exact rational it denotes, and the f64
arithmetic of the conversion routines is carried out exactly (the inputs and
outputs named by the specification are all exactly representable, and the
claims under study are about the algebraic structure of the computations).
chrono panics (NaiveDate::from_ymd / and_hms on out-of-range fields) are
modelled as Option.none.
-/

namespace Dashcam

/-- One byte of a buffer: u8 read, out-of-range indices read 0 (reads in the
code only happen after the length check, so the default is never reachable
there). -/
def byteAt (b : List Nat) (i : Nat) : Nat := b.getD i 0 % 256

/-- BigEndian::read_u32 at offset i. -/
def readU32BE (b : List Nat) (i : Nat) : Nat :=
  byteAt b i * 0x1000000 + byteAt b (i + 1) * 0x10000 +
    byteAt b (i + 2) * 0x100 + byteAt b (i + 3)

/-- LittleEndian::read_u32 at offset i. -/
def readU32LE (b : List Nat) (i : Nat) : Nat :=
  byteAt b i + byteAt b (i + 1) * 0x100 +
    byteAt b (i + 2) * 0x10000 + byteAt b (i + 3) * 0x1000000

/-- The exact rational value of an IEEE-754 binary32 bit pattern
(LittleEndian::read_f32 composed with the f32 -> f64 widening, which is
exact).  Exponent 255 (infinities and NaNs) has no rational value; those
patterns are mapped to 0 and are outside the scope of every claim here. -/
def f32ToRat (w : Nat) : ℚ :=
  let sign : ℚ := if w / 2 ^ 31 % 2 = 1 then -1 else 1
  let e : ℕ := w / 2 ^ 23 % 256
  let m : ℕ := w % 2 ^ 23
  if e = 255 then 0
  else if e = 0 then sign * (m : ℚ) * (2 : ℚ) ^ (-149 : ℤ)
  else sign * ((2 ^ 23 + m : ℕ) : ℚ) * (2 : ℚ) ^ ((e : ℤ) - 150)

/-- novatek_gps::Error.  The Utf8Error payload of the Uft8 variant and the
str payloads are modelled by the byte lists they stand for (the payload
carries no information the claims use). -/
inductive Error where
  | missingBytes
  | invalidBoxSize (bufLen declared : Nat)
  | uft8
  | invalidBoxType (actual expected : List Nat)
  | invalidMagicWord (actual expected : List Nat)
  | noSatLock
  | invalidHemisphere
deriving DecidableEq, Repr

inductive LatitudeHemisphere where
  | north
  | south
deriving DecidableEq, Repr

inductive LongitudeHemisphere where
  | east
  | west
deriving DecidableEq, Repr

/-- field::BOX_TYPE slice, 4..8. -/
def boxTypeBytes (b : List Nat) : List Nat :=
  [byteAt b 4, byteAt b 5, byteAt b 6, byteAt b 7]

/-- field::MAGIC slice, 8..12. -/
def magicBytes (b : List Nat) : List Nat :=
  [byteAt b 8, byteAt b 9, byteAt b 10, byteAt b 11]

/-- The bytes of NovatekGps::BOX_TYPE = "free". -/
def freeBytes : List Nat := [0x66, 0x72, 0x65, 0x65]

/-- The bytes of NovatekGps::MAGIC_WORD = "GPS " (trailing space). -/
def gpsBytes : List Nat := [0x47, 0x50, 0x53, 0x20]

/-- Is a byte a UTF-8 continuation byte (0x80..=0xBF)? -/
def utf8Cont (c : Nat) : Bool := 0x80 ≤ c && c ≤ 0xBF

/-- str::from_utf8 succeeds: standard UTF-8 well-formedness (forbidding
overlong encodings, surrogates and values above U+10FFFF), as Rust checks
it. -/
def utf8Valid : List Nat → Bool
  | [] => true
  | c0 :: rest =>
    if c0 ≤ 0x7F then utf8Valid rest
    else if 0xC2 ≤ c0 ∧ c0 ≤ 0xDF then
      match rest with
      | c1 :: rest1 => utf8Cont c1 && utf8Valid rest1
      | [] => false
    else if c0 = 0xE0 then
      match rest with
      | c1 :: c2 :: rest2 =>
        (0xA0 ≤ c1 && c1 ≤ 0xBF) && utf8Cont c2 && utf8Valid rest2
      | _ => false
    else if (0xE1 ≤ c0 ∧ c0 ≤ 0xEC) ∨ c0 = 0xEE ∨ c0 = 0xEF then
      match rest with
      | c1 :: c2 :: rest2 => utf8Cont c1 && utf8Cont c2 && utf8Valid rest2
      | _ => false
    else if c0 = 0xED then
      match rest with
      | c1 :: c2 :: rest2 =>
        (0x80 ≤ c1 && c1 ≤ 0x9F) && utf8Cont c2 && utf8Valid rest2
      | _ => false
    else if c0 = 0xF0 then
      match rest with
      | c1 :: c2 :: c3 :: rest3 =>
        (0x90 ≤ c1 && c1 ≤ 0xBF) && utf8Cont c2 && utf8Cont c3 && utf8Valid rest3
      | _ => false
    else if 0xF1 ≤ c0 ∧ c0 ≤ 0xF3 then
      match rest with
      | c1 :: c2 :: c3 :: rest3 =>
        utf8Cont c1 && utf8Cont c2 && utf8Cont c3 && utf8Valid rest3
      | _ => false
    else if c0 = 0xF4 then
      match rest with
      | c1 :: c2 :: c3 :: rest3 =>
        (0x80 ≤ c1 && c1 ≤ 0x8F) && utf8Cont c2 && utf8Cont c3 && utf8Valid rest3
      | _ => false
    else false

namespace NovatekGps

/-- NovatekGps::MIN_SIZE = field::REST.start = 60. -/
def MIN_SIZE : Nat := 60

/-- NovatekGps::box_size: big-endian u32 at field::BOX_SIZE (0..4), as usize. -/
def box_size (b : List Nat) : Nat := readU32BE b 0

/-- NovatekGps::box_type: str::from_utf8 of bytes 4..8. -/
def box_type (b : List Nat) : Except Error (List Nat) :=
  if utf8Valid (boxTypeBytes b) then .ok (boxTypeBytes b) else .error .uft8

/-- NovatekGps::magic_word: str::from_utf8 of bytes 8..12. -/
def magic_word (b : List Nat) : Except Error (List Nat) :=
  if utf8Valid (magicBytes b) then .ok (magicBytes b) else .error .uft8

/-- NovatekGps::hour: little-endian u32 at 16..20. -/
def hour (b : List Nat) : Nat := readU32LE b 16

/-- NovatekGps::minute: little-endian u32 at 20..24. -/
def minute (b : List Nat) : Nat := readU32LE b 20

/-- NovatekGps::second: little-endian u32 at 24..28. -/
def second (b : List Nat) : Nat := readU32LE b 24

/-- NovatekGps::year: YEAR_OFFSET (2000) + little-endian u32 at 28..32,
u32 arithmetic (wrapping). -/
def year (b : List Nat) : Nat := (2000 + readU32LE b 28) % 2 ^ 32

/-- NovatekGps::month: little-endian u32 at 32..36. -/
def month (b : List Nat) : Nat := readU32LE b 32

/-- NovatekGps::day: little-endian u32 at 36..40. -/
def day (b : List Nat) : Nat := readU32LE b 36

/-- NovatekGps::sat_lock: byte 40 equals 0x41 = ASCII A. -/
def sat_lock (b : List Nat) : Bool := byteAt b 40 == 0x41

/-- NovatekGps::latitude_hemisphere: byte 41, 0x4E = N -> North,
0x53 = S -> South, anything else -> InvalidHemisphere. -/
def latitude_hemisphere (b : List Nat) : Except Error LatitudeHemisphere :=
  if byteAt b 41 = 0x4E then .ok .north
  else if byteAt b 41 = 0x53 then .ok .south
  else .error .invalidHemisphere

/-- NovatekGps::longitude_hemisphere: byte 42, 0x45 = E -> East,
0x57 = W -> West, anything else -> InvalidHemisphere. -/
def longitude_hemisphere (b : List Nat) : Except Error LongitudeHemisphere :=
  if byteAt b 42 = 0x45 then .ok .east
  else if byteAt b 42 = 0x57 then .ok .west
  else .error .invalidHemisphere

/-- NovatekGps::latitude: f32 at 44..48 (packed DDDmm.mmmm), widened. -/
def latitude (b : List Nat) : ℚ := f32ToRat (readU32LE b 44)

/-- NovatekGps::longitude: f32 at 48..52 (packed DDDmm.mmmm), widened. -/
def longitude (b : List Nat) : ℚ := f32ToRat (readU32LE b 48)

/-- NovatekGps::speed: f32 at 52..56, knots, widened. -/
def speed (b : List Nat) : ℚ := f32ToRat (readU32LE b 52)

/-- NovatekGps::bearing: f32 at 56..60, degrees. -/
def bearing (b : List Nat) : ℚ := f32ToRat (readU32LE b 56)

/-- Truncation toward zero of a rational, the rounding Rust f64 % uses. -/
def ratTrunc (q : ℚ) : ℤ := q.num.tdiv q.den

/-- Rust f64 remainder x % y (exact arithmetic): x - y * trunc(x / y). -/
def fmod (x y : ℚ) : ℚ := x - y * (ratTrunc (x / y) : ℚ)

/-- NovatekGps::dms_to_deg: min = dms % 100; deg = dms - min;
out = deg / 100 + min / 60; negated (times -1.0) when invert. -/
def dms_to_deg (dms : ℚ) (invert : Bool) : ℚ :=
  let mn := fmod dms 100
  let deg := dms - mn
  let out := deg / 100 + mn / 60
  if invert then -1 * out else out

/-- matches!(hemi, LatitudeHemisphere::South). -/
def isSouth : LatitudeHemisphere → Bool
  | .south => true
  | .north => false

/-- matches!(hemi, LongitudeHemisphere::West). -/
def isWest : LongitudeHemisphere → Bool
  | .west => true
  | .east => false

/-- NovatekGps::latitude_deg: invert the packed latitude when the hemisphere
is South. -/
def latitude_deg (b : List Nat) : Except Error ℚ :=
  (latitude_hemisphere b).map fun h => dms_to_deg (latitude b) (isSouth h)

/-- NovatekGps::longitude_deg: invert the packed longitude when the
hemisphere is West. -/
def longitude_deg (b : List Nat) : Except Error ℚ :=
  (longitude_hemisphere b).map fun h => dms_to_deg (longitude b) (isWest h)

/-- The knots -> m/s conversion expression of NovatekGps::speed_mps:
knots * 0.514444. -/
def knots_to_mps (knots : ℚ) : ℚ := knots * 0.514444

/-- NovatekGps::speed_mps: self.speed() as f64 * 0.514444. -/
def speed_mps (b : List Nat) : ℚ := knots_to_mps (speed b)

/-- NovatekGps::check_len. -/
def check_len (b : List Nat) : Except Error Unit :=
  if b.length < MIN_SIZE then .error .missingBytes else .ok ()

/-- NovatekGps::check_box_size. -/
def check_box_size (b : List Nat) : Except Error Unit :=
  if box_size b ≠ b.length then .error (.invalidBoxSize b.length (box_size b))
  else .ok ()

/-- NovatekGps::check_box_type. -/
def check_box_type (b : List Nat) : Except Error Unit :=
  match box_type b with
  | .error e => .error e
  | .ok t => if t ≠ freeBytes then .error (.invalidBoxType t freeBytes) else .ok ()

/-- NovatekGps::check_magic_word. -/
def check_magic_word (b : List Nat) : Except Error Unit :=
  match magic_word b with
  | .error e => .error e
  | .ok m => if m ≠ gpsBytes then .error (.invalidMagicWord m gpsBytes) else .ok ()

/-- NovatekGps::check_sat_lock. -/
def check_sat_lock (b : List Nat) : Except Error Unit :=
  if sat_lock b then .ok () else .error .noSatLock

/-- NovatekGps::check_hemisphere. -/
def check_hemisphere (b : List Nat) : Except Error Unit :=
  match latitude_hemisphere b with
  | .error e => .error e
  | .ok _ =>
    match longitude_hemisphere b with
    | .error e => .error e
    | .ok _ => .ok ()

/-- NovatekGps::new: the six checks chained with the ? operator; the record
is the (borrowed) buffer itself. -/
def new (b : List Nat) : Except Error (List Nat) :=
  match check_len b with
  | .error e => .error e
  | .ok _ =>
    match check_box_size b with
    | .error e => .error e
    | .ok _ =>
      match check_box_type b with
      | .error e => .error e
      | .ok _ =>
        match check_magic_word b with
        | .error e => .error e
        | .ok _ =>
          match check_sat_lock b with
          | .error e => .error e
          | .ok _ =>
            match check_hemisphere b with
            | .error e => .error e
            | .ok _ => .ok b

end NovatekGps

/-- chrono::NaiveDateTime as the decoder assembles it: six calendar fields,
no timezone.  Its Ord (used by sort_by_key) is chronological, which on these
fields is lexicographic. -/
structure DateTime where
  year : Int
  month : Nat
  day : Nat
  hour : Nat
  minute : Nat
  second : Nat
deriving DecidableEq, Repr

/-- The u32 -> i32 cast (self.year() as _): two's-complement
reinterpretation. -/
def toI32 (n : Nat) : Int :=
  if n % 2 ^ 32 < 2 ^ 31 then (n % 2 ^ 32 : Int) else (n % 2 ^ 32 : Int) - 2 ^ 32

/-- Proleptic-Gregorian leap year, as chrono computes it. -/
def isLeapYear (y : Int) : Bool :=
  (y % 4 == 0 && !(y % 100 == 0)) || y % 400 == 0

/-- Days in a month of the proleptic Gregorian calendar. -/
def daysInMonth (y : Int) (m : Nat) : Nat :=
  if m = 2 then if isLeapYear y then 29 else 28
  else if m = 4 ∨ m = 6 ∨ m = 9 ∨ m = 11 then 30
  else 31

/-- chrono NaiveDate MIN_YEAR = i32::MIN >> 13. -/
def chronoMinYear : Int := -262144

/-- chrono NaiveDate MAX_YEAR = i32::MAX >> 13. -/
def chronoMaxYear : Int := 262143

/-- chrono::NaiveDate::from_ymd(y, m, d) does not panic: the arguments form
an in-range proleptic-Gregorian date. -/
def YmdValid (y : Int) (m d : Nat) : Prop :=
  chronoMinYear ≤ y ∧ y ≤ chronoMaxYear ∧
    1 ≤ m ∧ m ≤ 12 ∧ 1 ≤ d ∧ d ≤ daysInMonth y m

instance (y : Int) (m d : Nat) : Decidable (YmdValid y m d) := by
  unfold YmdValid; infer_instance

/-- chrono::NaiveDate::and_hms(h, mi, s) does not panic. -/
def HmsValid (h mi s : Nat) : Prop := h < 24 ∧ mi < 60 ∧ s < 60

instance (h mi s : Nat) : Decidable (HmsValid h mi s) := by
  unfold HmsValid; infer_instance

namespace NovatekGps

/-- NovatekGps::datetime: NaiveDate::from_ymd(year as i32, month, day)
.and_hms(hour, minute, second).  Both chrono calls panic on out-of-range
fields; a panic is modelled as none. -/
def datetime (b : List Nat) : Option DateTime :=
  if YmdValid (toI32 (year b)) (month b) (day b) ∧
      HmsValid (hour b) (minute b) (second b) then
    some ⟨toI32 (year b), month b, day b, hour b, minute b, second b⟩
  else none

end NovatekGps

/-- main.rs GpsData: one decoded record of the run-wide collection. -/
structure GpsData where
  file_name : List Nat
  datetime : DateTime
  latitude : ℚ
  longitude : ℚ
  speed : ℚ
  course : ℚ
deriving DecidableEq, Repr

/-- opts.rs SortingMode. -/
inductive SortingMode where
  | file
  | gpsDate
  | none
deriving DecidableEq, Repr

/-- Lexicographic non-strict comparison of equal-typed lists; on byte lists
this is Rust's Ord for String/[u8], and on the six date-time fields it is
chrono's chronological Ord. -/
def lexLe {α : Type} [LinearOrder α] : List α → List α → Bool
  | [], _ => true
  | _ :: _, [] => false
  | a :: as, b :: bs => if a < b then true else if b < a then false else lexLe as bs

/-- Lexicographic strict comparison (Rust Ord::lt on paths). -/
def lexLt {α : Type} [LinearOrder α] : List α → List α → Bool
  | [], [] => false
  | [], _ :: _ => true
  | _ :: _, [] => false
  | a :: as, b :: bs => if a < b then true else if b < a then false else lexLt as bs

/-- The sort key list of a DateTime: chronological order is lexicographic
order on these fields. -/
def dtKey (d : DateTime) : List Int :=
  [d.year, (d.month : Int), (d.day : Int), (d.hour : Int),
    (d.minute : Int), (d.second : Int)]

/-- The comparator of SortingMode::File: a.file_name.cmp(&b.file_name) is
not Greater. -/
def fileLe (a b : GpsData) : Bool := lexLe a.file_name b.file_name

/-- The key order of SortingMode::GpsDate: sort_by_key(|g| g.datetime). -/
def dateLe (a b : GpsData) : Bool := lexLe (dtKey a.datetime) (dtKey b.datetime)

/-- The sort match of do_main: File and GpsDate use Vec's stable sort
(sort_by / sort_by_key); None leaves the vector untouched. -/
def sortItems : SortingMode → List GpsData → List GpsData
  | .file, l => l.mergeSort fileLe
  | .gpsDate, l => l.mergeSort dateLe
  | .none, l => l

/-- Path::file_name, modelled on byte paths: the bytes after the last
0x2F separator. -/
def baseName (p : List Nat) : List Nat :=
  (p.reverse.takeWhile (fun c => c ≠ 0x2F)).reverse

/-- One input file as the pipeline sees it: its resolved path and the GPS
box's ordered block buffers (none when the container has no GPS box; the
seek-and-read of each RawBlock is collapsed to the bytes it yields). -/
structure FileInput where
  path : List Nat
  blocks : Option (List (List Nat))
deriving DecidableEq, Repr

/-- The log lines the pipeline emits (diagnostic payloads beyond the claim:
offsets and sizes live in the I/O layer and are omitted). -/
inductive LogEntry where
  | warnNoGps (path : List Nat)
  | warnSkipped (file : List Nat) (idx : Nat) (e : Error)
  | infoRecord (g : GpsData)
deriving DecidableEq, Repr

/-- Fatal ends of do_main while extracting: a chrono panic out of
datetime(), or a novatek error propagated by the ? operator. -/
inductive RunAbort where
  | panic
  | fatal (e : Error)
deriving DecidableEq, Repr

/-- The run-wide collection and the log, threaded through extraction. -/
structure PipeState where
  items : List GpsData
  log : List LogEntry
deriving DecidableEq, Repr

def initState : PipeState := ⟨[], []⟩

/-- The GpsData literal built after a successful validation, or none when
one of the chrono/decoder calls fails (datetime panic, hemisphere error). -/
def recordOf (name b : List Nat) : Option GpsData :=
  match NovatekGps.datetime b, NovatekGps.latitude_deg b, NovatekGps.longitude_deg b with
  | some dt, .ok la, .ok lo =>
    some ⟨name, dt, la, lo, NovatekGps.speed_mps b, NovatekGps.bearing b⟩
  | _, _, _ => Option.none

/-- One iteration of the block loop of do_main: a validation error logs a
warning and skips the block; a success decodes and appends; a chrono panic
or a propagated decoder error aborts the run. -/
def stepBlock (name : List Nat) (idx : Nat) (st : PipeState) (buf : List Nat) :
    Except RunAbort PipeState :=
  match NovatekGps.new buf with
  | .error e => .ok { st with log := st.log ++ [.warnSkipped name idx e] }
  | .ok _ =>
    match NovatekGps.datetime buf with
    | Option.none => .error .panic
    | some dt =>
      match NovatekGps.latitude_deg buf, NovatekGps.longitude_deg buf with
      | .ok la, .ok lo =>
        let g : GpsData :=
          ⟨name, dt, la, lo, NovatekGps.speed_mps buf, NovatekGps.bearing buf⟩
        .ok { items := st.items ++ [g], log := st.log ++ [.infoRecord g] }
      | .error e, _ => .error (.fatal e)
      | .ok _, .error e => .error (.fatal e)

/-- The enumerated block loop for one file. -/
def runBlocks (name : List Nat) (idx : Nat) (st : PipeState) :
    List (List Nat) → Except RunAbort PipeState
  | [] => .ok st
  | buf :: rest =>
    match stepBlock name idx st buf with
    | .error a => .error a
    | .ok st1 => runBlocks name (idx + 1) st1 rest

/-- One file: a missing GPS box logs and moves on; otherwise the blocks are
processed in declaration order. -/
def runFile (st : PipeState) (f : FileInput) : Except RunAbort PipeState :=
  match f.blocks with
  | Option.none => .ok { st with log := st.log ++ [.warnNoGps f.path] }
  | some bs => runBlocks (baseName f.path) 0 st bs

/-- The file loop, in the order the resolved inputs are supplied. -/
def runFiles (st : PipeState) : List FileInput → Except RunAbort PipeState
  | [] => .ok st
  | f :: fs =>
    match runFile st f with
    | .error a => .error a
    | .ok st1 => runFiles st1 fs

/-- The records one file contributes, in block order. -/
def fileRecords (f : FileInput) : List GpsData :=
  match f.blocks with
  | Option.none => []
  | some bs =>
    bs.filterMap fun b =>
      if (NovatekGps.new b).isOk then recordOf (baseName f.path) b else Option.none

/-- BTreeSet<PathBuf>::insert on its sorted model: keeps the list strictly
ascending by path and ignores a path already present. -/
def btreeInsert (f : FileInput) : List FileInput → List FileInput
  | [] => [f]
  | g :: gs =>
    if lexLt f.path g.path then f :: g :: gs
    else if f.path = g.path then g :: gs
    else g :: btreeInsert f gs

/-- Collecting the glob matches into the BTreeSet: the inputs end up
deduplicated and sorted ascending by resolved path. -/
def resolveInputs (fs : List FileInput) : List FileInput :=
  fs.foldl (fun acc f => btreeInsert f acc) []

/-- The extraction phase of do_main over already-resolved inputs. -/
def extract (files : List FileInput) : Except RunAbort PipeState :=
  runFiles initState files

/-- do_main's core: resolve the inputs, extract, then sort per the mode. -/
def runPipeline (inputs : List FileInput) (mode : SortingMode) :
    Except RunAbort (List GpsData × List LogEntry) :=
  match extract (resolveInputs inputs) with
  | .error a => .error a
  | .ok st => .ok (sortItems mode st.items, st.log)

/-! Concrete buffers used by witnesses and counterexamples. -/

/-- A buffer passing every validator check, with in-range date/time fields
(2021-08-09 10:30:15, hemisphere N/E, all f32 fields zero). -/
def validBuf : List Nat :=
  [0, 0, 0, 60,
   0x66, 0x72, 0x65, 0x65,
   0x47, 0x50, 0x53, 0x20,
   0, 0, 0, 0,
   10, 0, 0, 0,
   30, 0, 0, 0,
   15, 0, 0, 0,
   21, 0, 0, 0,
   8, 0, 0, 0,
   9, 0, 0, 0,
   0x41, 0x4E, 0x45, 0,
   0, 0, 0, 0,
   0, 0, 0, 0,
   0, 0, 0, 0,
   0, 0, 0, 0]

/-- Passes every validator check but stores month = 13: chrono's
from_ymd(2021, 13, 9) panics. -/
def badMonthBuf : List Nat :=
  [0, 0, 0, 60,
   0x66, 0x72, 0x65, 0x65,
   0x47, 0x50, 0x53, 0x20,
   0, 0, 0, 0,
   10, 0, 0, 0,
   30, 0, 0, 0,
   15, 0, 0, 0,
   21, 0, 0, 0,
   13, 0, 0, 0,
   9, 0, 0, 0,
   0x41, 0x4E, 0x45, 0,
   0, 0, 0, 0,
   0, 0, 0, 0,
   0, 0, 0, 0,
   0, 0, 0, 0]

/-- Four bytes declaring box size 99: shorter than MIN_SIZE and with a size
mismatch at the same time. -/
def shortBuf : List Nat := [0, 0, 0, 99]

/-- 60 zero bytes: long enough, but declares box size 0 ≠ 60. -/
def sizeMismatchBuf : List Nat := List.replicate 60 0

/-- Correct length and declared size, but bytes 4..8 are 0xFF: not valid
UTF-8, so box_type() fails before the "free" comparison. -/
def badUtf8Buf : List Nat :=
  [0, 0, 0, 60, 0xFF, 0xFF, 0xFF, 0xFF] ++ List.replicate 52 0

/-- Correct length and declared size, box-type bytes "fred": valid UTF-8
and not "free". -/
def wrongTypeBuf : List Nat :=
  [0, 0, 0, 60, 0x66, 0x72, 0x65, 0x64] ++ List.replicate 52 0

/-- One input file, path "a", holding a single invalid block. -/
def sampleInputs : List FileInput := [⟨[0x61], some [shortBuf]⟩]

/-- The state extraction reaches on sampleInputs: nothing collected, one
skip warning logged. -/
def sampleState : PipeState := ⟨[], [.warnSkipped [0x61] 0 .missingBytes]⟩

end Dashcam

deriving instance DecidableEq for Except

namespace Dashcam

namespace NovatekGps

/-- The chain of ? operators in new: an error of check_len is returned
unchanged. -/
theorem new_error_of_len {b : List Nat} {e : Error}
    (h : check_len b = .error e) : new b = .error e := by
  unfold new; simp [h]

/-- With the length check passed, an error of check_box_size is returned
unchanged. -/
theorem new_error_of_box_size {b : List Nat} {e : Error}
    (h1 : check_len b = .ok ()) (h : check_box_size b = .error e) :
    new b = .error e := by
  unfold new; simp [h1, h]

/-- With the first two checks passed, an error of check_box_type is
returned unchanged. -/
theorem new_error_of_box_type {b : List Nat} {e : Error}
    (h1 : check_len b = .ok ()) (h2 : check_box_size b = .ok ())
    (h : check_box_type b = .error e) : new b = .error e := by
  unfold new; simp [h1, h2, h]

/-- With the first three checks passed, an error of check_magic_word is
returned unchanged. -/
theorem new_error_of_magic {b : List Nat} {e : Error}
    (h1 : check_len b = .ok ()) (h2 : check_box_size b = .ok ())
    (h3 : check_box_type b = .ok ()) (h : check_magic_word b = .error e) :
    new b = .error e := by
  unfold new; simp [h1, h2, h3, h]

/-- With the first four checks passed, an error of check_sat_lock is
returned unchanged. -/
theorem new_error_of_sat_lock {b : List Nat} {e : Error}
    (h1 : check_len b = .ok ()) (h2 : check_box_size b = .ok ())
    (h3 : check_box_type b = .ok ()) (h4 : check_magic_word b = .ok ())
    (h : check_sat_lock b = .error e) : new b = .error e := by
  unfold new; simp [h1, h2, h3, h4, h]

/-- With the first five checks passed, an error of check_hemisphere is
returned unchanged. -/
theorem new_error_of_hemisphere {b : List Nat} {e : Error}
    (h1 : check_len b = .ok ()) (h2 : check_box_size b = .ok ())
    (h3 : check_box_type b = .ok ()) (h4 : check_magic_word b = .ok ())
    (h5 : check_sat_lock b = .ok ()) (h : check_hemisphere b = .error e) :
    new b = .error e := by
  unfold new; simp [h1, h2, h3, h4, h5, h]

/-- new succeeds exactly when all six checks succeed, and the record it
returns is the buffer. -/
theorem new_ok_iff (b : List Nat) :
    new b = .ok b ↔
      check_len b = .ok () ∧ check_box_size b = .ok () ∧
      check_box_type b = .ok () ∧ check_magic_word b = .ok () ∧
      check_sat_lock b = .ok () ∧ check_hemisphere b = .ok () := by
  unfold new
  cases h1 : check_len b with
  | error e => simp [h1]
  | ok v1 =>
    cases v1
    cases h2 : check_box_size b with
    | error e => simp [h2]
    | ok v2 =>
      cases v2
      cases h3 : check_box_type b with
      | error e => simp [h3]
      | ok v3 =>
        cases v3
        cases h4 : check_magic_word b with
        | error e => simp [h4]
        | ok v4 =>
          cases v4
          cases h5 : check_sat_lock b with
          | error e => simp [h5]
          | ok v5 =>
            cases v5
            cases h6 : check_hemisphere b with
            | error e => simp [h6]
            | ok v6 => cases v6; simp

/-- C1: NovatekGps::new runs the six checks in the fixed order length,
box size, box type, magic word, satellite lock, hemisphere; the first
failing check aborts validation and its error is returned unchanged, and
validation succeeds exactly when all six checks pass. -/
theorem validator_six_checks_in_order (b : List Nat) :
    (new b = .ok b ↔
      check_len b = .ok () ∧ check_box_size b = .ok () ∧
      check_box_type b = .ok () ∧ check_magic_word b = .ok () ∧
      check_sat_lock b = .ok () ∧ check_hemisphere b = .ok ()) ∧
    (∀ e, check_len b = .error e → new b = .error e) ∧
    (∀ e, check_len b = .ok () → check_box_size b = .error e →
      new b = .error e) ∧
    (∀ e, check_len b = .ok () → check_box_size b = .ok () →
      check_box_type b = .error e → new b = .error e) ∧
    (∀ e, check_len b = .ok () → check_box_size b = .ok () →
      check_box_type b = .ok () → check_magic_word b = .error e →
      new b = .error e) ∧
    (∀ e, check_len b = .ok () → check_box_size b = .ok () →
      check_box_type b = .ok () → check_magic_word b = .ok () →
      check_sat_lock b = .error e → new b = .error e) ∧
    (∀ e, check_len b = .ok () → check_box_size b = .ok () →
      check_box_type b = .ok () → check_magic_word b = .ok () →
      check_sat_lock b = .ok () → check_hemisphere b = .error e →
      new b = .error e) :=
  ⟨new_ok_iff b,
   fun _ h => new_error_of_len h,
   fun _ h1 h => new_error_of_box_size h1 h,
   fun _ h1 h2 h => new_error_of_box_type h1 h2 h,
   fun _ h1 h2 h3 h => new_error_of_magic h1 h2 h3 h,
   fun _ h1 h2 h3 h4 h => new_error_of_sat_lock h1 h2 h3 h4 h,
   fun _ h1 h2 h3 h4 h5 h => new_error_of_hemisphere h1 h2 h3 h4 h5 h⟩

/-- C6: a buffer shorter than 60 bytes always validates to MissingBytes,
whatever its contents. -/
theorem short_buffer_yields_missingBytes (b : List Nat)
    (h : b.length < 60) : new b = .error .missingBytes := by
  apply new_error_of_len
  unfold check_len MIN_SIZE
  simp [h]

/-- C6 witness: the four-byte buffer is rejected as MissingBytes. -/
theorem short_buffer_yields_missingBytes_witness :
    new shortBuf = .error .missingBytes :=
  short_buffer_yields_missingBytes shortBuf (by decide)

/-- C4 counterexample: shortBuf declares box size 99 ≠ its length 4, yet
validation yields MissingBytes, not InvalidBoxSize — the length check runs
first, so the claim fails on buffers shorter than 60 bytes. -/
theorem box_size_claim_counterexample :
    readU32BE shortBuf 0 ≠ shortBuf.length ∧
    new shortBuf = .error .missingBytes ∧
    new shortBuf ≠
      .error (.invalidBoxSize shortBuf.length (readU32BE shortBuf 0)) := by
  decide

/-- C4 amended: for every buffer of length at least 60 whose first 4 bytes
(big-endian u32) differ from its length, validation yields InvalidBoxSize
carrying the buffer length and the declared size. -/
theorem box_size_mismatch_yields_invalidBoxSize (b : List Nat)
    (h60 : 60 ≤ b.length) (hm : box_size b ≠ b.length) :
    new b = .error (.invalidBoxSize b.length (box_size b)) := by
  have h1 : check_len b = .ok () := by
    unfold check_len MIN_SIZE
    rw [if_neg (by omega)]
  apply new_error_of_box_size h1
  unfold check_box_size
  simp [hm]

/-- C4 amended witness: 60 zero bytes declare size 0 and are rejected as
InvalidBoxSize(60, 0). -/
theorem box_size_mismatch_yields_invalidBoxSize_witness :
    new sizeMismatchBuf =
      .error (.invalidBoxSize sizeMismatchBuf.length (box_size sizeMismatchBuf)) :=
  box_size_mismatch_yields_invalidBoxSize sizeMismatchBuf (by decide) (by decide)

/-- C5 counterexample: a 60-byte buffer with matching declared size whose
bytes 4..8 are 0xFF (not "free") is rejected as a Utf8 error, not as
InvalidBoxType — str::from_utf8 fails before the tag comparison. -/
theorem box_type_claim_counterexample :
    badUtf8Buf.length = 60 ∧
    box_size badUtf8Buf = badUtf8Buf.length ∧
    boxTypeBytes badUtf8Buf ≠ freeBytes ∧
    new badUtf8Buf = .error .uft8 ∧
    new badUtf8Buf ≠
      .error (.invalidBoxType (boxTypeBytes badUtf8Buf) freeBytes) := by
  decide

/-- C5 amended: for every buffer of length at least 60 with matching
declared box size, if bytes 4..8 are valid UTF-8 and differ from "free",
validation fails with InvalidBoxType carrying the actual tag and "free"
(invalid UTF-8 at 4..8 yields a Utf8 error instead). -/
theorem box_type_mismatch_yields_invalidBoxType (b : List Nat)
    (h60 : 60 ≤ b.length) (hsz : box_size b = b.length)
    (hutf : utf8Valid (boxTypeBytes b) = true)
    (hne : boxTypeBytes b ≠ freeBytes) :
    new b = .error (.invalidBoxType (boxTypeBytes b) freeBytes) := by
  have h1 : check_len b = .ok () := by
    unfold check_len MIN_SIZE
    rw [if_neg (by omega)]
  have h2 : check_box_size b = .ok () := by
    unfold check_box_size
    simp [hsz]
  apply new_error_of_box_type h1 h2
  unfold check_box_type box_type
  simp [hutf, hne]

/-- C5 amended witness: tag "fred" is rejected as
InvalidBoxType("fred", "free"). -/
theorem box_type_mismatch_yields_invalidBoxType_witness :
    new wrongTypeBuf =
      .error (.invalidBoxType (boxTypeBytes wrongTypeBuf) freeBytes) :=
  box_type_mismatch_yields_invalidBoxType wrongTypeBuf
    (by decide) (by decide) (by decide) (by decide)

/-- A passed hemisphere check means both hemisphere reads succeeded. -/
theorem hemisphere_oks_of_check {b : List Nat}
    (h : check_hemisphere b = .ok ()) :
    (∃ x, latitude_hemisphere b = .ok x) ∧
    (∃ y, longitude_hemisphere b = .ok y) := by
  unfold check_hemisphere at h
  cases hl : latitude_hemisphere b with
  | error e => simp [hl] at h
  | ok x =>
    cases hg : longitude_hemisphere b with
    | error e => simp [hl, hg] at h
    | ok y => exact ⟨⟨x, rfl⟩, ⟨y, rfl⟩⟩

/-- C2 counterexample: badMonthBuf passes every validator check (month is
never range-checked) yet stores month = 13, so NaiveDate::from_ymd inside
datetime() panics — decoding does not succeed on every validated buffer. -/
theorem post_validation_datetime_counterexample :
    new badMonthBuf = .ok badMonthBuf ∧
    month badMonthBuf = 13 ∧
    datetime badMonthBuf = Option.none := by
  decide

/-- C2 amended: for every buffer that passed all validator checks,
latitude_deg and longitude_deg return Ok; datetime() returns a timestamp
exactly when the decoded date/time fields form an in-range calendar date
and time (the validator does not constrain them, and chrono panics
otherwise). -/
theorem post_validation_decoding (b : List Nat) (h : new b = .ok b) :
    (∃ q, latitude_deg b = .ok q) ∧ (∃ q, longitude_deg b = .ok q) ∧
    ((datetime b).isSome ↔
      YmdValid (toI32 (year b)) (month b) (day b) ∧
      HmsValid (hour b) (minute b) (second b)) := by
  have h6 : check_hemisphere b = .ok () := ((new_ok_iff b).mp h).2.2.2.2.2
  obtain ⟨⟨x, hx⟩, ⟨y, hy⟩⟩ := hemisphere_oks_of_check h6
  refine ⟨⟨dms_to_deg (latitude b) (isSouth x), ?_⟩,
    ⟨dms_to_deg (longitude b) (isWest y), ?_⟩, ?_⟩
  · unfold latitude_deg
    rw [hx]
    rfl
  · unfold longitude_deg
    rw [hy]
    rfl
  · unfold datetime
    by_cases hc : YmdValid (toI32 (year b)) (month b) (day b) ∧
        HmsValid (hour b) (minute b) (second b)
    · simp [hc]
    · simp [hc]

/-- C2 amended witness: validBuf (all fields in range) decodes fully. -/
theorem post_validation_decoding_witness :
    (∃ q, latitude_deg validBuf = .ok q) ∧
    (∃ q, longitude_deg validBuf = .ok q) ∧
    ((datetime validBuf).isSome ↔
      YmdValid (toI32 (year validBuf)) (month validBuf) (day validBuf) ∧
      HmsValid (hour validBuf) (minute validBuf) (second validBuf)) :=
  post_validation_decoding validBuf (by decide)

/-- C3: dms_to_deg computes minutes = value mod 100, degreesPart = value
minus minutes, degreesPart/100 + minutes/60, negated exactly when the
invert flag is set; the flag is South for latitude and West for longitude;
and the three reference values hold. -/
theorem dms_to_deg_conversion (v : ℚ) (inv : Bool) (b : List Nat) :
    (dms_to_deg v inv =
      (if inv then -((v - fmod v 100) / 100 + fmod v 100 / 60)
       else (v - fmod v 100) / 100 + fmod v 100 / 60)) ∧
    (∀ hm, latitude_hemisphere b = .ok hm →
      latitude_deg b = .ok (dms_to_deg (latitude b) (isSouth hm)) ∧
      (isSouth hm = true ↔ hm = .south)) ∧
    (∀ hm, longitude_hemisphere b = .ok hm →
      longitude_deg b = .ok (dms_to_deg (longitude b) (isWest hm)) ∧
      (isWest hm = true ↔ hm = .west)) ∧
    dms_to_deg 0 false = 0 ∧
    dms_to_deg 4730 false = 47.5 ∧
    dms_to_deg 4730 true = -47.5 := by
  have t47 : ratTrunc ((4730 : ℚ) / 100) = 47 := by
    unfold ratTrunc
    norm_num
    decide
  have t0 : ratTrunc ((0 : ℚ) / 100) = 0 := by
    unfold ratTrunc
    norm_num
  have f47 : fmod 4730 100 = 30 := by
    unfold fmod
    rw [t47]
    norm_num
  have f0 : fmod 0 100 = 0 := by
    unfold fmod
    rw [t0]
    norm_num
  refine ⟨?_, ?_, ?_, ?_, ?_, ?_⟩
  · unfold dms_to_deg
    cases inv <;> simp
  · intro hm hhm
    refine ⟨?_, by cases hm <;> simp [isSouth]⟩
    unfold latitude_deg
    rw [hhm]
    rfl
  · intro hm hhm
    refine ⟨?_, by cases hm <;> simp [isWest]⟩
    unfold longitude_deg
    rw [hhm]
    rfl
  · unfold dms_to_deg
    rw [f0]
    norm_num
  · unfold dms_to_deg
    rw [f47]
    norm_num
  · unfold dms_to_deg
    rw [f47]
    norm_num

/-- C10: speed_mps is the widened speed field times the literal constant
0.514444, and one knot converts to exactly 0.514444 m/s. -/
theorem speed_mps_literal_factor (b : List Nat) :
    speed_mps b = speed b * (0.514444 : ℚ) ∧
    knots_to_mps 1 = 0.514444 := by
  constructor
  · rfl
  · unfold knots_to_mps
    ring

end NovatekGps

theorem lexLe_refl {α : Type} [LinearOrder α] (x : List α) : lexLe x x = true := by
  induction x with
  | nil => rfl
  | cons a as ih => simp [lexLe, ih]

theorem lexLe_trans {α : Type} [LinearOrder α] :
    ∀ x y z : List α, lexLe x y = true → lexLe y z = true → lexLe x z = true := by
  intro x
  induction x with
  | nil =>
    intro y z _ _
    rfl
  | cons a as ih =>
    intro y z hxy hyz
    cases y with
    | nil => simp [lexLe] at hxy
    | cons b bs =>
      cases z with
      | nil => simp [lexLe] at hyz
      | cons c cs =>
        simp only [lexLe] at hxy hyz ⊢
        by_cases hab : a < b
        · by_cases hbc : b < c
          · rw [if_pos (lt_trans hab hbc)]
          · by_cases hcb : c < b
            · rw [if_neg hbc, if_pos hcb] at hyz
              cases hyz
            · have hbc2 : b = c := le_antisymm (le_of_not_lt hcb) (le_of_not_lt hbc)
              have hac : a < c := by rw [← hbc2]; exact hab
              rw [if_pos hac]
        · by_cases hba : b < a
          · rw [if_neg hab, if_pos hba] at hxy
            cases hxy
          · have hab2 : a = b := le_antisymm (le_of_not_lt hba) (le_of_not_lt hab)
            rw [if_neg hab, if_neg hba] at hxy
            by_cases hbc : b < c
            · have hac : a < c := by rw [hab2]; exact hbc
              rw [if_pos hac]
            · by_cases hcb : c < b
              · rw [if_neg hbc, if_pos hcb] at hyz
                cases hyz
              · have hbc2 : b = c := le_antisymm (le_of_not_lt hcb) (le_of_not_lt hbc)
                rw [if_neg hbc, if_neg hcb] at hyz
                have hac : ¬ a < c := by rw [hab2, hbc2]; exact lt_irrefl c
                have hca : ¬ c < a := by rw [hab2, hbc2]; exact lt_irrefl c
                rw [if_neg hac, if_neg hca]
                exact ih bs cs hxy hyz

theorem lexLe_total {α : Type} [LinearOrder α] :
    ∀ x y : List α, (lexLe x y || lexLe y x) = true := by
  intro x
  induction x with
  | nil =>
    intro y
    rfl
  | cons a as ih =>
    intro y
    cases y with
    | nil => rfl
    | cons b bs =>
      simp only [lexLe]
      by_cases hab : a < b
      · simp [hab]
      · by_cases hba : b < a
        · simp [hab, hba]
        · simp [hab, hba]
          exact Bool.or_eq_true .. |>.mp (ih bs) |>.elim Or.inl Or.inr

theorem fileLe_trans (a b c : GpsData)
    (h1 : fileLe a b = true) (h2 : fileLe b c = true) : fileLe a c = true :=
  lexLe_trans _ _ _ h1 h2

theorem fileLe_total (a b : GpsData) : (fileLe a b || fileLe b a) = true :=
  lexLe_total _ _

theorem dateLe_trans (a b c : GpsData)
    (h1 : dateLe a b = true) (h2 : dateLe b c = true) : dateLe a c = true :=
  lexLe_trans _ _ _ h1 h2

theorem dateLe_total (a b : GpsData) : (dateLe a b || dateLe b a) = true :=
  lexLe_total _ _

/-- C7: both active sorting modes produce a stably sorted permutation of
the collection: File mode is ascending by file name, GpsDate mode is
ascending by the decoded timestamp, and in either mode two records with
equal keys keep their prior relative order. -/
theorem sorter_stable_both_modes (l : List GpsData) :
    ((sortItems .file l).Pairwise (fun a b => fileLe a b = true) ∧
      (sortItems .file l).Perm l ∧
      (∀ a b : GpsData, a.file_name = b.file_name →
        [a, b].Sublist l → [a, b].Sublist (sortItems .file l))) ∧
    ((sortItems .gpsDate l).Pairwise (fun a b => dateLe a b = true) ∧
      (sortItems .gpsDate l).Perm l ∧
      (∀ a b : GpsData, a.datetime = b.datetime →
        [a, b].Sublist l → [a, b].Sublist (sortItems .gpsDate l))) := by
  refine ⟨⟨?_, ?_, ?_⟩, ⟨?_, ?_, ?_⟩⟩
  · exact List.sorted_mergeSort fileLe_trans fileLe_total l
  · exact List.mergeSort_perm l fileLe
  · intro a b hab hsub
    apply List.pair_sublist_mergeSort fileLe_trans fileLe_total _ hsub
    unfold fileLe
    rw [hab]
    exact lexLe_refl _
  · exact List.sorted_mergeSort dateLe_trans dateLe_total l
  · exact List.mergeSort_perm l dateLe
  · intro a b hab hsub
    apply List.pair_sublist_mergeSort dateLe_trans dateLe_total _ hsub
    unfold dateLe
    rw [hab]
    exact lexLe_refl _

/-- A block failing validation is logged and skipped: the state keeps its
items and gains one warning. -/
theorem stepBlock_invalid {name : List Nat} {idx : Nat} {st : PipeState}
    {buf : List Nat} {e : Error} (h : NovatekGps.new buf = .error e) :
    stepBlock name idx st buf =
      .ok ⟨st.items, st.log ++ [.warnSkipped name idx e]⟩ := by
  unfold stepBlock
  rw [h]

/-- A block passing validation with decodable fields appends exactly one
record and one info line. -/
theorem stepBlock_valid {name : List Nat} {idx : Nat} {st : PipeState}
    {buf v : List Nat} {dt : DateTime} {la lo : ℚ}
    (h1 : NovatekGps.new buf = .ok v)
    (h2 : NovatekGps.datetime buf = some dt)
    (h3 : NovatekGps.latitude_deg buf = .ok la)
    (h4 : NovatekGps.longitude_deg buf = .ok lo) :
    stepBlock name idx st buf =
      .ok ⟨st.items ++
            [⟨name, dt, la, lo, NovatekGps.speed_mps buf, NovatekGps.bearing buf⟩],
          st.log ++
            [.infoRecord
              ⟨name, dt, la, lo, NovatekGps.speed_mps buf, NovatekGps.bearing buf⟩]⟩ := by
  unfold stepBlock
  rw [h1, h2, h3, h4]

/-- A chrono panic inside datetime() aborts the whole run. -/
theorem stepBlock_panic {name : List Nat} {idx : Nat} {st : PipeState}
    {buf v : List Nat} (h1 : NovatekGps.new buf = .ok v)
    (h2 : NovatekGps.datetime buf = Option.none) :
    stepBlock name idx st buf = .error .panic := by
  unfold stepBlock
  rw [h1, h2]

/-- The items a successful block loop accumulates: the prior items followed
by the decodable validated blocks, in block order. -/
theorem runBlocks_items (name : List Nat) :
    ∀ (bs : List (List Nat)) (idx : Nat) (st st1 : PipeState),
      runBlocks name idx st bs = .ok st1 →
      st1.items = st.items ++ bs.filterMap (fun b =>
        if (NovatekGps.new b).isOk then recordOf name b else Option.none) := by
  intro bs
  induction bs with
  | nil =>
    intro idx st st1 h
    simp [runBlocks] at h
    simp [← h]
  | cons buf rest ih =>
    intro idx st st1 h
    unfold runBlocks at h
    cases hnew : NovatekGps.new buf with
    | error e =>
      rw [stepBlock_invalid hnew] at h
      have hrec := ih (idx + 1) _ st1 h
      simp only [hrec]
      simp [List.filterMap_cons, hnew, Except.isOk, Except.toBool]
    | ok v =>
      cases hdt : NovatekGps.datetime buf with
      | none =>
        rw [stepBlock_panic hnew hdt] at h
        cases h
      | some dt =>
        cases hla : NovatekGps.latitude_deg buf with
        | error e =>
          rw [show stepBlock name idx st buf = .error (.fatal e) by
            unfold stepBlock; rw [hnew, hdt, hla]] at h
          cases h
        | ok la =>
          cases hlo : NovatekGps.longitude_deg buf with
          | error e =>
            rw [show stepBlock name idx st buf = .error (.fatal e) by
              unfold stepBlock; rw [hnew, hdt, hla, hlo]] at h
            cases h
          | ok lo =>
            rw [stepBlock_valid hnew hdt hla hlo] at h
            have hrec := ih (idx + 1) _ st1 h
            have hro : recordOf name buf =
                some ⟨name, dt, la, lo, NovatekGps.speed_mps buf,
                  NovatekGps.bearing buf⟩ := by
              unfold recordOf
              rw [hdt, hla, hlo]
            simp only [hrec]
            simp [List.filterMap_cons, hnew, Except.isOk, Except.toBool, hro,
              List.append_assoc]

/-- The items a successful file loop accumulates: the prior items followed
by each file's records, files in processing order. -/
theorem runFiles_items :
    ∀ (fs : List FileInput) (st st1 : PipeState),
      runFiles st fs = .ok st1 →
      st1.items = st.items ++ fs.flatMap fileRecords := by
  intro fs
  induction fs with
  | nil =>
    intro st st1 h
    simp [runFiles] at h
    simp [← h]
  | cons f fs ih =>
    intro st st1 h
    unfold runFiles at h
    cases hfl : runFile st f with
    | error a =>
      rw [hfl] at h
      cases h
    | ok stMid =>
      rw [hfl] at h
      have h2 := ih stMid st1 h
      cases hblocks : f.blocks with
      | none =>
        have hrf : runFile st f = .ok ⟨st.items, st.log ++ [.warnNoGps f.path]⟩ := by
          unfold runFile
          rw [hblocks]
        rw [hrf] at hfl
        have hmid := (Except.ok.inj hfl).symm
        rw [h2, hmid]
        simp [fileRecords, hblocks]
      | some bs =>
        have hrf : runFile st f = runBlocks (baseName f.path) 0 st bs := by
          unfold runFile
          rw [hblocks]
        rw [hrf] at hfl
        have h1 := runBlocks_items (baseName f.path) bs 0 st stMid hfl
        rw [h2, h1]
        simp [fileRecords, hblocks, List.append_assoc]

theorem mem_btreeInsert {f g : FileInput} :
    ∀ {l : List FileInput}, g ∈ btreeInsert f l → g = f ∨ g ∈ l := by
  intro l
  induction l with
  | nil =>
    intro h
    simp [btreeInsert] at h
    exact Or.inl h
  | cons q qs ih =>
    intro h
    unfold btreeInsert at h
    by_cases h1 : lexLt f.path q.path = true
    · rw [if_pos h1] at h
      rcases List.mem_cons.mp h with rfl | h2
      · exact Or.inl rfl
      · exact Or.inr h2
    · rw [if_neg h1] at h
      by_cases h2 : f.path = q.path
      · rw [if_pos h2] at h
        exact Or.inr h
      · rw [if_neg h2] at h
        rcases List.mem_cons.mp h with rfl | h3
        · exact Or.inr (List.mem_cons_self _ _)
        · rcases ih h3 with h4 | h4
          · exact Or.inl h4
          · exact Or.inr (List.mem_cons_of_mem _ h4)

theorem lexLt_trans {α : Type} [LinearOrder α] :
    ∀ x y z : List α, lexLt x y = true → lexLt y z = true → lexLt x z = true := by
  intro x
  induction x with
  | nil =>
    intro y z hxy hyz
    cases y with
    | nil => cases hxy
    | cons b bs =>
      cases z with
      | nil => cases hyz
      | cons c cs => rfl
  | cons a as ih =>
    intro y z hxy hyz
    cases y with
    | nil => cases hxy
    | cons b bs =>
      cases z with
      | nil => cases hyz
      | cons c cs =>
        simp only [lexLt] at hxy hyz ⊢
        by_cases hab : a < b
        · by_cases hbc : b < c
          · rw [if_pos (lt_trans hab hbc)]
          · by_cases hcb : c < b
            · rw [if_neg hbc, if_pos hcb] at hyz
              cases hyz
            · have hbc2 : b = c := le_antisymm (le_of_not_lt hcb) (le_of_not_lt hbc)
              have hac : a < c := by rw [← hbc2]; exact hab
              rw [if_pos hac]
        · by_cases hba : b < a
          · rw [if_neg hab, if_pos hba] at hxy
            cases hxy
          · have hab2 : a = b := le_antisymm (le_of_not_lt hba) (le_of_not_lt hab)
            rw [if_neg hab, if_neg hba] at hxy
            by_cases hbc : b < c
            · have hac : a < c := by rw [hab2]; exact hbc
              rw [if_pos hac]
            · by_cases hcb : c < b
              · rw [if_neg hbc, if_pos hcb] at hyz
                cases hyz
              · have hbc2 : b = c := le_antisymm (le_of_not_lt hcb) (le_of_not_lt hbc)
                rw [if_neg hbc, if_neg hcb] at hyz
                have hac : ¬ a < c := by rw [hab2, hbc2]; exact lt_irrefl c
                have hca : ¬ c < a := by rw [hab2, hbc2]; exact lt_irrefl c
                rw [if_neg hac, if_neg hca]
                exact ih bs cs hxy hyz

theorem lexLt_of_not_lt_of_ne {α : Type} [LinearOrder α] :
    ∀ x y : List α, lexLt x y = false → x ≠ y → lexLt y x = true := by
  intro x
  induction x with
  | nil =>
    intro y hxy hne
    cases y with
    | nil => exact absurd rfl hne
    | cons c cs => cases hxy
  | cons a as ih =>
    intro y hxy hne
    cases y with
    | nil => rfl
    | cons b bs =>
      simp only [lexLt] at hxy ⊢
      by_cases hab : a < b
      · rw [if_pos hab] at hxy
        cases hxy
      · rw [if_neg hab] at hxy
        by_cases hba : b < a
        · rw [if_pos hba]
        · have hab2 : a = b := le_antisymm (le_of_not_lt hba) (le_of_not_lt hab)
          rw [if_neg hba] at hxy
          rw [if_neg hab, if_neg hba]
          exact ih bs hxy (fun hbs => hne (by rw [hab2, hbs]))

theorem btreeInsert_pairwise {f : FileInput} :
    ∀ {l : List FileInput},
      l.Pairwise (fun x y => lexLt x.path y.path = true) →
      (btreeInsert f l).Pairwise (fun x y => lexLt x.path y.path = true) := by
  intro l
  induction l with
  | nil =>
    intro _
    simp [btreeInsert]
  | cons q qs ih =>
    intro hp
    rcases List.pairwise_cons.mp hp with ⟨hq, hqs⟩
    unfold btreeInsert
    by_cases h1 : lexLt f.path q.path = true
    · rw [if_pos h1]
      refine List.pairwise_cons.mpr ⟨?_, hp⟩
      intro x hx
      rcases List.mem_cons.mp hx with rfl | hx2
      · exact h1
      · exact lexLt_trans _ _ _ h1 (hq x hx2)
    · rw [if_neg h1]
      by_cases h2 : f.path = q.path
      · rw [if_pos h2]
        exact hp
      · rw [if_neg h2]
        refine List.pairwise_cons.mpr ⟨?_, ih hqs⟩
        intro x hx
        rcases mem_btreeInsert hx with rfl | hx2
        · exact lexLt_of_not_lt_of_ne _ _ (by simpa using h1) h2
        · exact hq x hx2

theorem foldl_btreeInsert_pairwise (fs : List FileInput) :
    ∀ acc : List FileInput,
      acc.Pairwise (fun x y => lexLt x.path y.path = true) →
      (fs.foldl (fun a f => btreeInsert f a) acc).Pairwise
        (fun x y => lexLt x.path y.path = true) := by
  induction fs with
  | nil =>
    intro acc h
    simpa using h
  | cons f fs ih =>
    intro acc h
    exact ih _ (btreeInsert_pairwise h)

theorem resolveInputs_pairwise (fs : List FileInput) :
    (resolveInputs fs).Pairwise (fun x y => lexLt x.path y.path = true) :=
  foldl_btreeInsert_pairwise fs [] List.Pairwise.nil

/-- C8: with SortingMode::None the collection is exactly what extraction
built: the sorter leaves it untouched, it is the concatenation of each
resolved file's records in processing order (so each file's records are
contiguous and in block-declaration order), and the resolved inputs are
strictly ascending by path. -/
theorem none_mode_keeps_extraction_order (inputs : List FileInput)
    (st : PipeState) (h : extract (resolveInputs inputs) = .ok st) :
    sortItems .none st.items = st.items ∧
    st.items = (resolveInputs inputs).flatMap fileRecords ∧
    (resolveInputs inputs).Pairwise (fun f g => lexLt f.path g.path = true) := by
  refine ⟨rfl, ?_, resolveInputs_pairwise inputs⟩
  unfold extract at h
  have h1 := runFiles_items (resolveInputs inputs) initState st h
  simpa [initState] using h1

/-- C8 witness: one input file with one invalid block extracts to an empty
collection and one warning, in order. -/
theorem none_mode_keeps_extraction_order_witness :
    sortItems .none sampleState.items = sampleState.items ∧
    sampleState.items = (resolveInputs sampleInputs).flatMap fileRecords ∧
    (resolveInputs sampleInputs).Pairwise
      (fun f g => lexLt f.path g.path = true) :=
  none_mode_keeps_extraction_order sampleInputs sampleState (by decide)

/-- C9: a block that fails any validator check makes the pipeline log one
warning carrying the block index and the specific failure reason, append
nothing to the collection, and continue with the remaining blocks; the step
returns Ok, never a run abort. -/
theorem invalid_block_logged_and_skipped (name : List Nat) (idx : Nat)
    (st : PipeState) (buf : List Nat) (rest : List (List Nat)) (e : Error)
    (h : NovatekGps.new buf = .error e) :
    stepBlock name idx st buf =
      .ok ⟨st.items, st.log ++ [.warnSkipped name idx e]⟩ ∧
    runBlocks name idx st (buf :: rest) =
      runBlocks name (idx + 1)
        ⟨st.items, st.log ++ [.warnSkipped name idx e]⟩ rest := by
  refine ⟨stepBlock_invalid h, ?_⟩
  show (match stepBlock name idx st buf with
    | .error a => .error a
    | .ok st1 => runBlocks name (idx + 1) st1 rest) =
    runBlocks name (idx + 1) ⟨st.items, st.log ++ [.warnSkipped name idx e]⟩ rest
  rw [stepBlock_invalid h]

/-- C9 witness: the four-byte buffer is skipped with a MissingBytes
warning and processing moves to the rest of the blocks. -/
theorem invalid_block_logged_and_skipped_witness :
    stepBlock [0x61] 0 initState shortBuf =
      .ok ⟨initState.items,
        initState.log ++ [.warnSkipped [0x61] 0 .missingBytes]⟩ ∧
    runBlocks [0x61] 0 initState [shortBuf] =
      runBlocks [0x61] 1
        ⟨initState.items,
          initState.log ++ [.warnSkipped [0x61] 0 .missingBytes]⟩ [] :=
  invalid_block_logged_and_skipped [0x61] 0 initState shortBuf []
    .missingBytes (by decide)

end Dashcam
